import Mathlib

/-!
Verification development for the real-time stereo-pipeline scheduler:
a shallow embedding of the Xenomai task wrapper, the pipeline stage
activations, the cycle-level monitor task, the performance monitor and
the RT scheduler, together with theorems settling the specification
claims against it.

Times are modelled as natural numbers (nanoseconds for `RTIME` values,
microseconds for scheduler/monitor durations); `RTIME` arithmetic is
unsigned 64-bit, so sums are reduced modulo `2 ^ 64` where the source
adds timestamps.
-/

namespace RtPipeline

/-- Size of the unsigned 64-bit `RTIME` domain. -/
def UINT64_SIZE : Nat := 2 ^ 64

/-- Overall cycle budget in nanoseconds (`CYCLE_TIME_NS` in the source). -/
def CYCLE_TIME_NS : Nat := 660000000

/-- Embedding of the `XenomaiTask` wrapper struct (scheduling-relevant
fields only; the raw `RT_TASK` handle carries no logic). -/
structure XenomaiTask where
  running : Bool
  lastWakeupTime : Nat
  period : Nat

/-- Embedding of `XenomaiTask::checkDeadline`: the deadline is
`lastWakeupTime + period` in unsigned 64-bit arithmetic, and the check
returns whether `now` is at or before that deadline. -/
def XenomaiTask.checkDeadline (t : XenomaiTask) (now : Nat) : Bool :=
  let deadline := (t.lastWakeupTime + t.period) % UINT64_SIZE
  decide (now ≤ deadline)

/-- State of the cycle-level watchdog (`monitorTask` in the source):
its two local counters. -/
structure MonitorTaskState where
  totalCycles : Nat
  missedDeadlines : Nat

/-- Embedding of one loop iteration of `monitorTask`: increment
`totalCycles`, compute `cycleTime = rt_timer_read() % CYCLE_TIME_NS`,
and increment `missedDeadlines` when `cycleTime > CYCLE_TIME_NS`.
`now` is the value returned by `rt_timer_read()` for this activation. -/
def monitorTaskStep (now : Nat) (st : MonitorTaskState) : MonitorTaskState :=
  let st1 : MonitorTaskState :=
    { totalCycles := st.totalCycles + 1, missedDeadlines := st.missedDeadlines }
  let cycleTime := now % CYCLE_TIME_NS
  if cycleTime > CYCLE_TIME_NS then
    { st1 with missedDeadlines := st1.missedDeadlines + 1 }
  else
    st1

/-- Identifiers of the global semaphores of the pipeline. -/
inductive SemId where
  | frameSync
  | preprocessSync
  | detectionSync
deriving DecidableEq

/-- Observable synchronization effects of one stage activation. -/
inductive StageEffect where
  | mutexAcquire
  | mutexRelease
  | mergeFrame (isLeft : Bool)
  | storePreprocessed
  | semBroadcast (s : SemId)
  | semTake (s : SemId)
deriving DecidableEq

/-- Embedding of the body of one `leftCameraTask` loop iteration after
`rt_task_wait_period`: on a successful `captureLeftFrame` the merged
view is updated under the frame mutex; nothing is signalled. -/
def leftCameraActivation (captureOk : Bool) : List StageEffect :=
  if captureOk then
    [StageEffect.mutexAcquire, StageEffect.mergeFrame true, StageEffect.mutexRelease]
  else []

/-- Embedding of the body of one `rightCameraTask` loop iteration: on a
successful `captureRightFrame` the merged view is updated under the
frame mutex and `preprocessSync` is broadcast. -/
def rightCameraActivation (captureOk : Bool) : List StageEffect :=
  if captureOk then
    [StageEffect.mutexAcquire, StageEffect.mergeFrame false, StageEffect.mutexRelease,
     StageEffect.semBroadcast SemId.preprocessSync]
  else []

/-- Embedding of the body of one `preprocessTask` loop iteration: it
takes `preprocessSync`; on success it snapshots the merged frame under
the mutex, preprocesses outside the lock, stores the result under the
mutex and broadcasts `detectionSync`. -/
def preprocessActivation (semOk : Bool) : List StageEffect :=
  StageEffect.semTake SemId.preprocessSync ::
    (if semOk then
      [StageEffect.mutexAcquire, StageEffect.mutexRelease,
       StageEffect.mutexAcquire, StageEffect.storePreprocessed, StageEffect.mutexRelease,
       StageEffect.semBroadcast SemId.detectionSync]
     else [])

/-- Semaphores broadcast during a list of effects, in order. -/
def broadcastsOf (effs : List StageEffect) : List SemId :=
  effs.filterMap fun e =>
    match e with
    | StageEffect.semBroadcast s => some s
    | _ => none

/-- Contents of a shared pipeline buffer (a frame with header fields
and pixel data), written and read as a whole under the frame mutex. -/
structure FrameBuf where
  rows : Nat
  cols : Nat
  pixels : List Nat
deriving DecidableEq

/-- Mutex-serialized operations on a shared single-value buffer: a
whole-value overwrite (producer) or a whole-value snapshot (consumer).
The frame mutex is held across each operation, so a history is a
sequence of these atomic operations. -/
inductive BufferOp where
  | write (v : FrameBuf)
  | read
deriving DecidableEq

/-- Runs a serialized history of buffer operations: the cell holds only
the latest written value (there is no queue) and each read observes the
current cell contents, appended to the list of observations. -/
def runBuffer : FrameBuf → List FrameBuf → List BufferOp → FrameBuf × List FrameBuf
  | cell, seen, [] => (cell, seen)
  | _cell, seen, BufferOp.write v :: rest => runBuffer v seen rest
  | cell, seen, BufferOp.read :: rest => runBuffer cell (seen ++ [cell]) rest

/-- Values observed by the consumer reads of a history, starting from
buffer contents `init`. -/
def observedValues (init : FrameBuf) (ops : List BufferOp) : List FrameBuf :=
  (runBuffer init [] ops).2

/-- Modelled from the spec: fixed histogram granularity in microseconds
(the `PerformanceMonitor` implementation is not in the sources; §3 of
the spec specifies a fixed bucket count/width). -/
def HIST_BUCKET_WIDTH_US : Nat := 100

/-- Modelled from the spec: per-task aggregate statistics kept by the
`PerformanceMonitor` (`TaskStatistics` in §3). Durations are in
microseconds; the running mean and jitter are exact rationals; the
histogram maps a bucket index to an occurrence count. -/
structure TaskStatistics where
  totalExecutions : Nat
  missedDeadlines : Nat
  averageExecutionTime : Rat
  maxExecutionTime : Nat
  jitter : Rat
  executionTimeHistogram : List (Nat × Nat)
deriving DecidableEq

/-- Zeroed statistics: the state of a freshly created or reset entry. -/
def emptyStats : TaskStatistics :=
  { totalExecutions := 0, missedDeadlines := 0, averageExecutionTime := 0,
    maxExecutionTime := 0, jitter := 0, executionTimeHistogram := [] }

/-- Sum of the occurrence counts of a histogram. -/
def histSum (h : List (Nat × Nat)) : Nat :=
  (h.map Prod.snd).sum

/-- Increments the count of bucket `b` in a histogram, creating the
bucket with count 1 if absent. -/
def bumpBucket : List (Nat × Nat) → Nat → List (Nat × Nat)
  | [], b => [(b, 1)]
  | (k, c) :: rest, b =>
    if k = b then (k, c + 1) :: rest else (k, c) :: bumpBucket rest b

/-- Modelled from the spec: the statistics update performed by one
successful `endMeasurement` (§4.1): increment `totalExecutions`;
increment `missedDeadlines` when a deadline is given and exceeded;
update the running mean incrementally; update the maximum; update the
jitter as a running measure of deviation from the mean; place the
elapsed time into its histogram bucket. -/
def recordElapsed (s : TaskStatistics) (elapsed : Nat) (deadline : Option Nat) :
    TaskStatistics :=
  let n := s.totalExecutions + 1
  let mean := s.averageExecutionTime +
    ((elapsed : Rat) - s.averageExecutionTime) / (n : Rat)
  { totalExecutions := n
    missedDeadlines := s.missedDeadlines +
      (match deadline with
       | some d => if d < elapsed then 1 else 0
       | none => 0)
    averageExecutionTime := mean
    maxExecutionTime := max s.maxExecutionTime elapsed
    jitter := s.jitter + |(elapsed : Rat) - mean|
    executionTimeHistogram := bumpBucket s.executionTimeHistogram (elapsed / HIST_BUCKET_WIDTH_US) }

/-- Errors of the performance-monitor API (§7): an `endMeasurement`
whose token has no matching prior `startMeasurement`, and a statistics
query for an unknown name. -/
inductive MonitorError where
  | invalidMeasurement
  | notFound
deriving DecidableEq

/-- Modelled from the spec: state of the `PerformanceMonitor` — the
per-name statistics (created lazily on the first recorded measurement)
and the per-name outstanding start tokens. Tokens are start timestamps
in microseconds. -/
structure PerformanceMonitor where
  stats : List (String × TaskStatistics)
  activeStarts : List (String × List Nat)

/-- The empty monitor: no tracked names, no outstanding starts. -/
def emptyMonitor : PerformanceMonitor :=
  { stats := [], activeStarts := [] }

/-- Looks a name up in the per-name statistics. -/
def findStats : List (String × TaskStatistics) → String → Option TaskStatistics
  | [], _ => none
  | (k, v) :: rest, name => if k = name then some v else findStats rest name

/-- Updates (or inserts) the statistics entry of a name. -/
def setStats : List (String × TaskStatistics) → String → TaskStatistics →
    List (String × TaskStatistics)
  | [], name, v => [(name, v)]
  | (k, s) :: rest, name, v =>
    if k = name then (k, v) :: rest else (k, s) :: setStats rest name v

/-- Outstanding start tokens of a name (empty if none). -/
def startsOf : List (String × List Nat) → String → List Nat
  | [], _ => []
  | (k, v) :: rest, name => if k = name then v else startsOf rest name

/-- Updates (or inserts) the outstanding-start entry of a name. -/
def setStarts : List (String × List Nat) → String → List Nat →
    List (String × List Nat)
  | [], name, v => [(name, v)]
  | (k, s) :: rest, name, v =>
    if k = name then (k, v) :: rest else (k, s) :: setStarts rest name v

/-- Whether a token list contains a given token. -/
def hasTok : List Nat → Nat → Bool
  | [], _ => false
  | x :: xs, t => if x = t then true else hasTok xs t

/-- Removes one occurrence of a token from a token list. -/
def removeTok : List Nat → Nat → List Nat
  | [], _ => []
  | x :: xs, t => if x = t then xs else x :: removeTok xs t

/-- Modelled from the spec: `startMeasurement(name)` records a start
timestamp and returns it as the token; it does not touch the
statistics (§4.1). `now` is the current clock reading. -/
def startMeasurement (m : PerformanceMonitor) (name : String) (now : Nat) :
    Nat × PerformanceMonitor :=
  (now, { m with
          activeStarts := setStarts m.activeStarts name (now :: startsOf m.activeStarts name) })

/-- Modelled from the spec: `endMeasurement(name, token[, deadline])`
computes `elapsed = now − token` and updates the statistics of `name`;
it fails with an invalid-measurement error, leaving the monitor
unchanged, when the token has no matching prior `startMeasurement` for
that name (§4.1, §7). Returns the elapsed time and the new monitor. -/
def endMeasurement (m : PerformanceMonitor) (name : String) (token : Nat)
    (now : Nat) (deadline : Option Nat) :
    Except MonitorError Nat × PerformanceMonitor :=
  let toks := startsOf m.activeStarts name
  if hasTok toks token then
    let elapsed := now - token
    let prev := (findStats m.stats name).getD emptyStats
    (Except.ok elapsed,
     { stats := setStats m.stats name (recordElapsed prev elapsed deadline),
       activeStarts := setStarts m.activeStarts name (removeTok toks token) })
  else
    (Except.error MonitorError.invalidMeasurement, m)

/-- Modelled from the spec: `getTaskStats(name)` returns a snapshot of
the statistics and fails with a not-found error for unknown names,
returning no partial result (§4.1, §7). -/
def getTaskStats (m : PerformanceMonitor) (name : String) :
    Except MonitorError TaskStatistics :=
  match findStats m.stats name with
  | some s => Except.ok s
  | none => Except.error MonitorError.notFound

/-- Modelled from the spec: `hasTask(name)` existence check (§4.1). -/
def hasTask (m : PerformanceMonitor) (name : String) : Bool :=
  (findStats m.stats name).isSome

/-- Modelled from the spec: `resetStatistics(name)` zeroes all counters
of `name` in place without removing the entry (§4.1). -/
def resetStatistics (m : PerformanceMonitor) (name : String) : PerformanceMonitor :=
  match findStats m.stats name with
  | some _ => { m with stats := setStats m.stats name emptyStats }
  | none => m

/-- Runs a sequence of measurement recordings (elapsed time and
optional deadline) against one task's statistics. -/
def runMeasurements (s : TaskStatistics) (es : List (Nat × Option Nat)) :
    TaskStatistics :=
  es.foldl (fun a e => recordElapsed a e.1 e.2) s

/-- Per-entry statistics invariant: the execution count equals the
total histogram mass and bounds the miss count. -/
def statsInv (s : TaskStatistics) : Prop :=
  s.totalExecutions = histSum s.executionTimeHistogram ∧
  s.missedDeadlines ≤ s.totalExecutions

/-- Monitor-wide invariant: every tracked entry satisfies `statsInv`. -/
def monitorInv (m : PerformanceMonitor) : Prop :=
  ∀ p ∈ m.stats, statsInv p.2

/-- Embedding of `RTScheduler::TaskConfig`: `period` and `deadline` are
signed microsecond counts (`std::chrono::microseconds`); the body is an
opaque callable handle where `none` models a null `std::function`. -/
structure TaskConfig where
  name : String
  period : Int
  deadline : Int
  priority : Int
  cpuCore : Int
  task : Option Nat
deriving DecidableEq

/-- Configuration errors raised by scheduler construction (§7),
identifying the offending task. -/
inductive ConfigError where
  | invalidPeriod (name : String)
  | nullBody (name : String)
deriving DecidableEq

/-- A valid task descriptor: positive period and non-null body (§3). -/
def validTask (t : TaskConfig) : Prop :=
  0 < t.period ∧ t.task ≠ none

instance (t : TaskConfig) : Decidable (validTask t) :=
  inferInstanceAs (Decidable (0 < t.period ∧ t.task ≠ none))

/-- Modelled from the spec: the descriptor validation performed by the
`RTScheduler` constructor (its definition is not in the sources):
scanning the task list in order, the first entry with a non-positive
period or a null body yields a configuration error. -/
def findConfigError : List TaskConfig → Option ConfigError
  | [] => none
  | t :: rest =>
    if t.period ≤ 0 then some (ConfigError.invalidPeriod t.name)
    else if t.task = none then some (ConfigError.nullBody t.name)
    else findConfigError rest

/-- Scheduler state after a successful construction: the validated task
list; no task is running yet. -/
structure RTScheduler where
  tasks : List TaskConfig
  running : Bool
deriving DecidableEq

/-- Modelled from the spec: `RTScheduler` construction validates every
descriptor and fails with a configuration error on the first violation,
before any task is created (§4.2); on success it stores the task list
with nothing started. -/
def construct (tasks : List TaskConfig) : Except ConfigError RTScheduler :=
  match findConfigError tasks with
  | some e => Except.error e
  | none => Except.ok { tasks := tasks, running := false }

/-- Observable record of the per-activation wrapper of one task: the
triples forwarded to the performance monitor through `monitorTask`, the
deadline-callback invocations, and the two counters kept per task. -/
structure WrapperState where
  records : List (String × Int × Bool)
  callbackCalls : List String
  missedDeadlines : Nat
  totalExecutions : Nat
deriving DecidableEq

/-- The wrapper state before any activation. -/
def emptyWrapperState : WrapperState :=
  { records := [], callbackCalls := [], missedDeadlines := 0, totalExecutions := 0 }

/-- Modelled from the spec: one activation of the per-task wrapper
(§4.2; the `RTScheduler::taskWrapper` definition is not in the
sources): run the body, measure the elapsed wall-clock duration,
compare it to the configured deadline; on a miss, mark it and invoke
the registered deadline callback (if any) with the task name; always
forward the (name, elapsed, missed) triple to the performance monitor
via `monitorTask`. `elapsed` is the measured duration of this
activation in microseconds. -/
def taskWrapperStep (cfg : TaskConfig) (hasCallback : Bool)
    (st : WrapperState) (elapsed : Int) : WrapperState :=
  let missed : Bool := decide (cfg.deadline < elapsed)
  { records := st.records ++ [(cfg.name, elapsed, missed)]
    callbackCalls :=
      if missed && hasCallback then st.callbackCalls ++ [cfg.name] else st.callbackCalls
    missedDeadlines := st.missedDeadlines + (if missed then 1 else 0)
    totalExecutions := st.totalExecutions + 1 }

/-! Helper lemmas. -/

lemma runBuffer_seen_mem (ops : List BufferOp) :
    ∀ (cell : FrameBuf) (seen : List FrameBuf) (v : FrameBuf),
      v ∈ (runBuffer cell seen ops).2 → v ∈ seen ∨ v = cell ∨ BufferOp.write v ∈ ops := by
  induction ops with
  | nil =>
    intro cell seen v h
    simp [runBuffer] at h
    exact Or.inl h
  | cons op rest ih =>
    intro cell seen v h
    cases op with
    | write w =>
      simp only [runBuffer] at h
      rcases ih w seen v h with h1 | h2 | h3
      · exact Or.inl h1
      · right; right; simp [h2]
      · right; right; simp [h3]
    | read =>
      simp only [runBuffer] at h
      rcases ih cell (seen ++ [cell]) v h with h1 | h2 | h3
      · rcases List.mem_append.mp h1 with ha | hb
        · exact Or.inl ha
        · right; left; simpa using hb
      · exact Or.inr (Or.inl h2)
      · right; right; simp [h3]

lemma histSum_bump (h : List (Nat × Nat)) (b : Nat) :
    histSum (bumpBucket h b) = histSum h + 1 := by
  induction h with
  | nil => simp [bumpBucket, histSum]
  | cons p rest ih =>
    obtain ⟨k, c⟩ := p
    by_cases hk : k = b
    · simp [bumpBucket, hk, histSum]
      omega
    · simp [bumpBucket, hk, histSum] at *
      omega

lemma recordElapsed_total (s : TaskStatistics) (e : Nat) (d : Option Nat) :
    (recordElapsed s e d).totalExecutions = s.totalExecutions + 1 := rfl

lemma recordElapsed_histSum (s : TaskStatistics) (e : Nat) (d : Option Nat) :
    histSum (recordElapsed s e d).executionTimeHistogram =
      histSum s.executionTimeHistogram + 1 := by
  simp [recordElapsed, histSum_bump]

lemma statsInv_empty : statsInv emptyStats :=
  ⟨rfl, Nat.le_refl 0⟩

lemma statsInv_record (s : TaskStatistics) (e : Nat) (d : Option Nat)
    (hs : statsInv s) : statsInv (recordElapsed s e d) := by
  obtain ⟨h1, h2⟩ := hs
  constructor
  · rw [recordElapsed_total, recordElapsed_histSum, h1]
  · have hm : (recordElapsed s e d).missedDeadlines ≤ s.missedDeadlines + 1 := by
      rcases d with _ | dl
      · show s.missedDeadlines + 0 ≤ s.missedDeadlines + 1
        omega
      · show s.missedDeadlines + (if dl < e then 1 else 0) ≤ s.missedDeadlines + 1
        by_cases hdl : dl < e
        · rw [if_pos hdl]
        · rw [if_neg hdl]
          omega
    rw [recordElapsed_total]
    omega

lemma runMeasurements_total (es : List (Nat × Option Nat)) :
    ∀ s : TaskStatistics,
      (runMeasurements s es).totalExecutions = s.totalExecutions + es.length := by
  induction es with
  | nil => intro s; simp [runMeasurements]
  | cons e rest ih =>
    intro s
    have := ih (recordElapsed s e.1 e.2)
    simp only [runMeasurements, List.foldl_cons] at *
    rw [this, recordElapsed_total]
    simp
    omega

lemma runMeasurements_histSum (es : List (Nat × Option Nat)) :
    ∀ s : TaskStatistics,
      histSum (runMeasurements s es).executionTimeHistogram =
        histSum s.executionTimeHistogram + es.length := by
  induction es with
  | nil => intro s; simp [runMeasurements]
  | cons e rest ih =>
    intro s
    have := ih (recordElapsed s e.1 e.2)
    simp only [runMeasurements, List.foldl_cons] at *
    rw [this, recordElapsed_histSum]
    simp
    omega

lemma statsInv_runMeasurements (es : List (Nat × Option Nat)) :
    ∀ s : TaskStatistics, statsInv s → statsInv (runMeasurements s es) := by
  induction es with
  | nil => intro s hs; simpa [runMeasurements] using hs
  | cons e rest ih =>
    intro s hs
    simp only [runMeasurements, List.foldl_cons] at *
    exact ih _ (statsInv_record s e.1 e.2 hs)

lemma mem_setStats :
    ∀ (l : List (String × TaskStatistics)) (name : String) (v : TaskStatistics)
      (p : String × TaskStatistics), p ∈ setStats l name v → p.2 = v ∨ p ∈ l := by
  intro l
  induction l with
  | nil =>
    intro name v p h
    simp [setStats] at h
    simp [h]
  | cons q rest ih =>
    intro name v p h
    obtain ⟨k, s⟩ := q
    by_cases hk : k = name
    · simp [setStats, hk] at h
      rcases h with h | h
      · left; simp [h]
      · right; simp [h]
    · simp [setStats, hk] at h
      rcases h with h | h
      · right; simp [h]
      · rcases ih name v p h with h1 | h2
        · exact Or.inl h1
        · right; simp [h2]

lemma findStats_mem :
    ∀ (l : List (String × TaskStatistics)) (name : String) (s : TaskStatistics),
      findStats l name = some s → ∃ k, (k, s) ∈ l := by
  intro l
  induction l with
  | nil => intro name s h; simp [findStats] at h
  | cons q rest ih =>
    intro name s h
    obtain ⟨k, v⟩ := q
    by_cases hk : k = name
    · simp [findStats, hk] at h
      exact ⟨k, by simp [h]⟩
    · simp [findStats, hk] at h
      obtain ⟨k2, hk2⟩ := ih name s h
      exact ⟨k2, by simp [hk2]⟩

lemma findStats_setStats_self :
    ∀ (l : List (String × TaskStatistics)) (name : String) (v : TaskStatistics),
      findStats (setStats l name v) name = some v := by
  intro l
  induction l with
  | nil => intro name v; simp [setStats, findStats]
  | cons q rest ih =>
    intro name v
    obtain ⟨k, s⟩ := q
    by_cases hk : k = name
    · simp [setStats, hk, findStats]
    · simp [setStats, hk, findStats, ih]

lemma findStats_setStats_other :
    ∀ (l : List (String × TaskStatistics)) (name other : String) (v : TaskStatistics),
      other ≠ name → findStats (setStats l name v) other = findStats l other := by
  intro l
  induction l with
  | nil =>
    intro name other v hother
    have hno : name ≠ other := fun hh => hother hh.symm
    simp [setStats, findStats, hno]
  | cons q rest ih =>
    intro name other v hother
    obtain ⟨k, s⟩ := q
    have hno : name ≠ other := fun hh => hother hh.symm
    by_cases hk : k = name
    · have hko : k ≠ other := by rw [hk]; exact hno
      simp [setStats, hk, findStats, hko, hno]
    · by_cases hko : k = other
      · simp [setStats, hk, findStats, hko, hother]
      · simp [setStats, hk, findStats, hko, ih name other v hother]

lemma startsOf_setStarts_self :
    ∀ (l : List (String × List Nat)) (name : String) (v : List Nat),
      startsOf (setStarts l name v) name = v := by
  intro l
  induction l with
  | nil => intro name v; simp [setStarts, startsOf]
  | cons q rest ih =>
    intro name v
    obtain ⟨k, s⟩ := q
    by_cases hk : k = name
    · simp [setStarts, hk, startsOf]
    · simp [setStarts, hk, startsOf, ih]

lemma removeTok_cons_self (xs : List Nat) (t : Nat) :
    removeTok (t :: xs) t = xs := by
  simp [removeTok]

lemma recordElapsed_avg_mul (s : TaskStatistics) (e : Nat) (d : Option Nat) :
    (recordElapsed s e d).averageExecutionTime *
        ((recordElapsed s e d).totalExecutions : Rat) =
      s.averageExecutionTime * (s.totalExecutions : Rat) + (e : Rat) := by
  have hn : ((s.totalExecutions : Rat) + 1) ≠ 0 := by positivity
  show (s.averageExecutionTime +
      ((e : Rat) - s.averageExecutionTime) / ((s.totalExecutions + 1 : Nat) : Rat)) *
      ((s.totalExecutions + 1 : Nat) : Rat) =
    s.averageExecutionTime * (s.totalExecutions : Rat) + (e : Rat)
  push_cast
  field_simp
  ring

lemma runMeasurements_avg_mul (es : List Nat) :
    ∀ s : TaskStatistics,
      (runMeasurements s (es.map fun e => (e, none))).averageExecutionTime *
          ((runMeasurements s (es.map fun e => (e, none))).totalExecutions : Rat) =
        s.averageExecutionTime * (s.totalExecutions : Rat) +
          (es.map (Nat.cast : Nat → Rat)).sum := by
  induction es with
  | nil => intro s; simp [runMeasurements]
  | cons e rest ih =>
    intro s
    have h1 := ih (recordElapsed s e none)
    have hfold : runMeasurements s ((e :: rest).map fun x => (x, (none : Option Nat))) =
        runMeasurements (recordElapsed s e none) (rest.map fun x => (x, (none : Option Nat))) :=
      rfl
    rw [hfold, h1, recordElapsed_avg_mul, List.map_cons, List.sum_cons]
    ring

lemma findConfigError_valid_none :
    ∀ l : List TaskConfig, (∀ u ∈ l, validTask u) → findConfigError l = none := by
  intro l
  induction l with
  | nil => intro h; rfl
  | cons t rest ih =>
    intro h
    obtain ⟨hp, hb⟩ := h t (by simp)
    have hp2 : ¬ t.period ≤ 0 := not_le.mpr hp
    simp only [findConfigError]
    rw [if_neg hp2, if_neg hb]
    exact ih fun u hu => h u (by simp [hu])

lemma findConfigError_first :
    ∀ (pre : List TaskConfig) (t : TaskConfig) (post : List TaskConfig),
      (∀ u ∈ pre, validTask u) → ¬ validTask t →
      findConfigError (pre ++ t :: post) =
        some (if t.period ≤ 0 then ConfigError.invalidPeriod t.name
              else ConfigError.nullBody t.name) := by
  intro pre
  induction pre with
  | nil =>
    intro t post hpre hinv
    by_cases hp : t.period ≤ 0
    · simp [findConfigError, hp]
    · have hb : t.task = none := by
        by_contra hbn
        exact hinv ⟨not_le.mp hp, hbn⟩
      simp [findConfigError, hp, hb]
  | cons u rest ih =>
    intro t post hpre hinv
    obtain ⟨hp, hb⟩ := hpre u (by simp)
    have hp2 : ¬ u.period ≤ 0 := not_le.mpr hp
    rw [List.cons_append]
    simp only [findConfigError]
    rw [if_neg hp2, if_neg hb]
    exact ih t post (fun v hv => hpre v (by simp [hv])) hinv

lemma taskWrapper_fold :
    ∀ (es : List Int) (cfg : TaskConfig) (st : WrapperState),
      (∀ e ∈ es, cfg.deadline < e) →
      es.foldl (taskWrapperStep cfg true) st =
        { records := st.records ++ es.map fun e => (cfg.name, e, true),
          callbackCalls := st.callbackCalls ++ es.map fun _ => cfg.name,
          missedDeadlines := st.missedDeadlines + es.length,
          totalExecutions := st.totalExecutions + es.length } := by
  intro es
  induction es with
  | nil =>
    intro cfg st h
    simp
  | cons e rest ih =>
    intro cfg st h
    have hme : cfg.deadline < e := h e (by simp)
    have hmiss : decide (cfg.deadline < e) = true := decide_eq_true hme
    rw [List.foldl_cons, ih cfg _ (fun x hx => h x (by simp [hx]))]
    simp [taskWrapperStep, hmiss, List.append_assoc]
    omega

/-! Claim theorems. -/

/-- C10: `XenomaiTask::checkDeadline(now)` uses the task's full period
as its deadline: whenever `lastWakeupTime + period` does not wrap the
unsigned 64-bit domain, it returns true if and only if
`now ≤ lastWakeupTime + period`. -/
theorem XenomaiTask_checkDeadline_iff (t : XenomaiTask) (now : Nat)
    (h : t.lastWakeupTime + t.period < UINT64_SIZE) :
    t.checkDeadline now = true ↔ now ≤ t.lastWakeupTime + t.period := by
  unfold XenomaiTask.checkDeadline
  rw [Nat.mod_eq_of_lt h]
  simp

/-- Witness for C10: a concrete task with wakeup time 100 and period 50
accepts `now = 150`. -/
theorem XenomaiTask_checkDeadline_iff_witness :
    XenomaiTask.checkDeadline ⟨true, 100, 50⟩ 150 = true :=
  (XenomaiTask_checkDeadline_iff ⟨true, 100, 50⟩ 150 (by decide)).mpr (by decide)

/-- C1: the cycle-level watchdog compares `rt_timer_read() % CYCLE_TIME_NS`
— not a measured lap time — against `CYCLE_TIME_NS`, and since a
remainder modulo `CYCLE_TIME_NS` can never exceed `CYCLE_TIME_NS`, the
missed-deadline counter is never incremented on any activation; in
particular it stays 0 at a timer reading whose lap would exceed the
budget. -/
theorem monitorTask_cycle_miss_never_recorded (now : Nat) (st : MonitorTaskState) :
    (monitorTaskStep now st).missedDeadlines = st.missedDeadlines ∧
    (monitorTaskStep now st).totalCycles = st.totalCycles + 1 ∧
    (monitorTaskStep 1320000001 ⟨0, 0⟩).missedDeadlines = 0 := by
  have hpos : 0 < CYCLE_TIME_NS := by decide
  have hlt : now % CYCLE_TIME_NS < CYCLE_TIME_NS := Nat.mod_lt _ hpos
  have hcond : ¬ (now % CYCLE_TIME_NS > CYCLE_TIME_NS) := by
    exact Nat.not_lt.mpr (Nat.le_of_lt hlt)
  refine ⟨?_, ?_, ?_⟩
  · simp [monitorTaskStep, if_neg hcond]
  · simp [monitorTaskStep, if_neg hcond]
  · decide

/-- Counterexample for C8: after a successful capture and merge, the
left-camera step broadcasts no semaphore at all — the claimed broadcast
of its downstream wake primitive does not happen. -/
theorem leftCamera_broadcasts_nothing :
    broadcastsOf (leftCameraActivation true) = [] := rfl

/-- C8 (amended): after a successful activation the right-camera step
broadcasts `preprocessSync` and the preprocess step broadcasts
`detectionSync`, while the left-camera step merges its frame without
broadcasting any semaphore; no stage broadcasts on an unsuccessful
activation. -/
theorem stage_broadcasts_amended :
    broadcastsOf (rightCameraActivation true) = [SemId.preprocessSync] ∧
    broadcastsOf (preprocessActivation true) = [SemId.detectionSync] ∧
    broadcastsOf (leftCameraActivation true) = [] ∧
    broadcastsOf (leftCameraActivation false) = [] ∧
    broadcastsOf (rightCameraActivation false) = [] ∧
    broadcastsOf (preprocessActivation false) = [] :=
  ⟨rfl, rfl, rfl, rfl, rfl, rfl⟩

/-- C9: in the mutex-serialized history of a shared pipeline buffer,
a producer writing `a` and then `b` before the consumer's single read
makes the consumer observe exactly `b` and never `a`; and in any
history, every observed value is the initial contents or some value
written whole by a producer — never a mix of fields of two writes. -/
theorem buffer_freshness (init a b : FrameBuf) (hab : b ≠ a) :
    observedValues init [BufferOp.write a, BufferOp.write b, BufferOp.read] = [b] ∧
    a ∉ observedValues init [BufferOp.write a, BufferOp.write b, BufferOp.read] ∧
    (∀ ops v, v ∈ observedValues init ops → v = init ∨ BufferOp.write v ∈ ops) := by
  refine ⟨rfl, ?_, ?_⟩
  · intro hmem
    have : a = b := by simpa [observedValues, runBuffer] using hmem
    exact hab this.symm
  · intro ops v hv
    rcases runBuffer_seen_mem ops init [] v hv with h1 | h2 | h3
    · simp at h1
    · exact Or.inl h2
    · exact Or.inr h3

/-- Witness for C9: with concrete distinct frames, the consumer
observes exactly the second write. -/
theorem buffer_freshness_witness :
    observedValues ⟨0, 0, []⟩
        [BufferOp.write ⟨1, 1, [1]⟩, BufferOp.write ⟨1, 1, [2]⟩, BufferOp.read] =
      [⟨1, 1, [2]⟩] :=
  (buffer_freshness ⟨0, 0, []⟩ ⟨1, 1, [1]⟩ ⟨1, 1, [2]⟩ (by decide)).1

/-- C4: after any sequence of N measurement recordings starting from a
fresh entry, `totalExecutions` equals N, the histogram bucket counts
sum to N, and `missedDeadlines` is bounded by `totalExecutions`; and
the per-entry invariant is preserved by every monitor operation
(`startMeasurement`, `endMeasurement`, `resetStatistics`). -/
theorem pm_execution_count_invariant (es : List (Nat × Option Nat))
    (m : PerformanceMonitor) (name : String) (tok now : Nat) (d : Option Nat)
    (hm : monitorInv m) :
    (runMeasurements emptyStats es).totalExecutions = es.length ∧
    histSum (runMeasurements emptyStats es).executionTimeHistogram = es.length ∧
    (runMeasurements emptyStats es).missedDeadlines ≤
      (runMeasurements emptyStats es).totalExecutions ∧
    monitorInv (startMeasurement m name tok).2 ∧
    monitorInv (endMeasurement m name tok now d).2 ∧
    monitorInv (resetStatistics m name) := by
  refine ⟨?_, ?_, ?_, ?_, ?_, ?_⟩
  · rw [runMeasurements_total]
    simp [emptyStats]
  · rw [runMeasurements_histSum]
    simp [emptyStats, histSum]
  · exact (statsInv_runMeasurements es emptyStats statsInv_empty).2
  · intro p hp
    exact hm p hp
  · cases hc : hasTok (startsOf m.activeStarts name) tok with
    | true =>
      simp only [endMeasurement, hc, if_true]
      intro p hp
      rcases mem_setStats m.stats name _ p hp with h1 | h2
      · rw [h1]
        apply statsInv_record
        cases hf : findStats m.stats name with
        | none =>
          simp [hf]
          exact statsInv_empty
        | some s =>
          simp [hf]
          obtain ⟨k, hk⟩ := findStats_mem m.stats name s hf
          exact hm (k, s) hk
      · exact hm p h2
    | false =>
      simp only [endMeasurement, hc]
      simp only [Bool.false_eq_true, if_false]
      exact fun p hp => hm p hp
  · cases hf : findStats m.stats name with
    | none =>
      simp only [resetStatistics, hf]
      exact hm
    | some s =>
      simp only [resetStatistics, hf]
      intro p hp
      rcases mem_setStats m.stats name emptyStats p hp with h1 | h2
      · rw [h1]
        exact statsInv_empty
      · exact hm p h2

/-- Witness for C4: two concrete measurements on the empty monitor. -/
theorem pm_execution_count_invariant_witness :
    (runMeasurements emptyStats [(150, some 100), (50, none)]).totalExecutions = 2 ∧
    monitorInv (resetStatistics emptyMonitor "T") :=
  ⟨(pm_execution_count_invariant [(150, some 100), (50, none)] emptyMonitor "T" 0 5 none
      (fun p hp => absurd hp (by simp [emptyMonitor]))).1,
   (pm_execution_count_invariant [(150, some 100), (50, none)] emptyMonitor "T" 0 5 none
      (fun p hp => absurd hp (by simp [emptyMonitor]))).2.2.2.2.2⟩

/-- C5: the incrementally maintained running mean coincides with the
reference arithmetic mean: after recording the elapsed durations of a
non-empty list, `averageExecutionTime` equals their sum divided by
their number. -/
theorem pm_mean_is_arithmetic_mean (es : List Nat) (h : es ≠ []) :
    (runMeasurements emptyStats (es.map fun e => (e, none))).averageExecutionTime =
      (es.map (Nat.cast : Nat → Rat)).sum / (es.length : Rat) := by
  have htot : (runMeasurements emptyStats (es.map fun e => (e, none))).totalExecutions
      = es.length := by
    rw [runMeasurements_total]
    simp [emptyStats]
  have hmul := runMeasurements_avg_mul es emptyStats
  rw [htot] at hmul
  have hlen : ((es.length : Nat) : Rat) ≠ 0 := by
    have hne : es.length ≠ 0 := fun hh => h (List.length_eq_zero.mp hh)
    exact_mod_cast hne
  rw [eq_div_iff hlen]
  simpa [emptyStats] using hmul

/-- Witness for C5: recording 100 and 200 yields a mean equal to the
arithmetic mean of the two values. -/
theorem pm_mean_is_arithmetic_mean_witness :
    (runMeasurements emptyStats ([100, 200].map fun e => (e, none))).averageExecutionTime =
      (([100, 200] : List Nat).map (Nat.cast : Nat → Rat)).sum / (([100, 200].length : Nat) : Rat) :=
  pm_mean_is_arithmetic_mean [100, 200] (by decide)

/-- C6: `getTaskStats` fails with a not-found error for a name with no
recorded measurement; `endMeasurement` with a token that has no
matching prior `startMeasurement` fails with an invalid-measurement
error leaving the monitor unchanged; and after one matching start/end
pair, a second `endMeasurement` for the same token fails and leaves the
monitor unchanged. -/
theorem pm_error_handling (m : PerformanceMonitor) (name : String) (t now now2 : Nat)
    (hname : hasTask m name = false)
    (htok : hasTok (startsOf m.activeStarts name) t = false) :
    getTaskStats m name = Except.error MonitorError.notFound ∧
    (endMeasurement m name t now none).1 = Except.error MonitorError.invalidMeasurement ∧
    (endMeasurement m name t now none).2 = m ∧
    (endMeasurement (startMeasurement m name t).2 name t now none).1 = Except.ok (now - t) ∧
    (endMeasurement (endMeasurement (startMeasurement m name t).2 name t now none).2
        name t now2 none).1 = Except.error MonitorError.invalidMeasurement ∧
    (endMeasurement (endMeasurement (startMeasurement m name t).2 name t now none).2
        name t now2 none).2 =
      (endMeasurement (startMeasurement m name t).2 name t now none).2 := by
  have hfind : findStats m.stats name = none := by
    cases hf : findStats m.stats name with
    | none => rfl
    | some s =>
      rw [hasTask, hf] at hname
      simp at hname
  set m1 := (startMeasurement m name t).2 with hm1
  have hstarts1 : startsOf m1.activeStarts name = t :: startsOf m.activeStarts name := by
    rw [hm1]
    simp [startMeasurement, startsOf_setStarts_self]
  have hhts : hasTok (t :: startsOf m.activeStarts name) t = true := by
    simp [hasTok]
  set m2 := (endMeasurement m1 name t now none).2 with hm2
  have hstarts2 : startsOf m2.activeStarts name = startsOf m.activeStarts name := by
    rw [hm2]
    simp [endMeasurement, hstarts1, hhts, removeTok_cons_self, startsOf_setStarts_self]
  refine ⟨?_, ?_, ?_, ?_, ?_, ?_⟩
  · simp [getTaskStats, hfind]
  · simp [endMeasurement, htok]
  · simp [endMeasurement, htok]
  · simp [endMeasurement, hstarts1, hhts]
  · simp [endMeasurement, hstarts2, htok]
  · simp [endMeasurement, hstarts2, htok]

/-- Witness for C6: concrete failures on the empty monitor with start
token 10 and a double `endMeasurement`. -/
theorem pm_error_handling_witness :
    getTaskStats emptyMonitor "E" = Except.error MonitorError.notFound ∧
    (endMeasurement (endMeasurement (startMeasurement emptyMonitor "E" 10).2 "E" 10 25 none).2
        "E" 10 30 none).1 = Except.error MonitorError.invalidMeasurement :=
  ⟨(pm_error_handling emptyMonitor "E" 10 25 30 rfl rfl).1,
   (pm_error_handling emptyMonitor "E" 10 25 30 rfl rfl).2.2.2.2.1⟩

/-- C7: `resetStatistics(name)` zeroes all counters of a tracked name
in place — afterwards the entry reports zero executions, zero misses
and a zero mean — while the entry stays tracked and every other name's
statistics are unchanged. -/
theorem pm_reset_statistics (m : PerformanceMonitor) (name other : String)
    (hname : hasTask m name = true) (hother : other ≠ name) :
    hasTask (resetStatistics m name) name = true ∧
    getTaskStats (resetStatistics m name) name = Except.ok emptyStats ∧
    emptyStats.totalExecutions = 0 ∧
    emptyStats.missedDeadlines = 0 ∧
    emptyStats.averageExecutionTime = 0 ∧
    getTaskStats (resetStatistics m name) other = getTaskStats m other := by
  obtain ⟨s, hs⟩ : ∃ s, findStats m.stats name = some s := by
    rw [hasTask] at hname
    exact Option.isSome_iff_exists.mp hname
  have hreset : resetStatistics m name = { m with stats := setStats m.stats name emptyStats } := by
    simp [resetStatistics, hs]
  refine ⟨?_, ?_, rfl, rfl, rfl, ?_⟩
  · rw [hreset]
    simp [hasTask, findStats_setStats_self]
  · rw [hreset]
    simp [getTaskStats, findStats_setStats_self]
  · rw [hreset]
    simp [getTaskStats, findStats_setStats_other m.stats name other emptyStats hother]

/-- C3: scheduler construction succeeds for every task list whose
entries all have a positive period and a non-null body, storing the
list with nothing running; for a list with a violating entry, it fails
with a configuration error identifying the first violating entry, and
no scheduler (hence no task) is created. -/
theorem construct_validation (tasks : List TaskConfig) :
    ((∀ u ∈ tasks, validTask u) →
      construct tasks = Except.ok { tasks := tasks, running := false }) ∧
    (∀ pre t post, tasks = pre ++ t :: post →
      (∀ u ∈ pre, validTask u) → ¬ validTask t →
      construct tasks = Except.error
        (if t.period ≤ 0 then ConfigError.invalidPeriod t.name
         else ConfigError.nullBody t.name)) := by
  constructor
  · intro h
    unfold construct
    rw [findConfigError_valid_none tasks h]
  · intro pre t post heq hpre hinv
    unfold construct
    rw [heq, findConfigError_first pre t post hpre hinv]

/-- Witness for C3: a valid singleton list constructs, and appending an
entry with period 0 fails with a configuration error naming it. -/
theorem construct_validation_witness :
    construct [⟨"good", 1000, 900, 99, 1, some 0⟩] =
      Except.ok { tasks := [⟨"good", 1000, 900, 99, 1, some 0⟩], running := false } ∧
    construct [⟨"good", 1000, 900, 99, 1, some 0⟩, ⟨"bad", 0, 1000, 98, 2, some 0⟩] =
      Except.error (ConfigError.invalidPeriod "bad") := by
  constructor
  · exact (construct_validation [⟨"good", 1000, 900, 99, 1, some 0⟩]).1 (by decide)
  · have h2 := (construct_validation
        [⟨"good", 1000, 900, 99, 1, some 0⟩, ⟨"bad", 0, 1000, 98, 2, some 0⟩]).2
        [⟨"good", 1000, 900, 99, 1, some 0⟩] ⟨"bad", 0, 1000, 98, 2, some 0⟩ []
        rfl (by decide) (by decide)
    simpa using h2

/-- C2: the per-activation wrapper records, for every activation, the
(name, elapsed, missed) triple with `missed` set exactly when the
elapsed duration exceeds the configured deadline; when every one of the
N activations exceeds the deadline, the miss counter and the execution
counter both equal N, the registered deadline callback fires exactly N
times, and every forwarded triple is marked missed. -/
theorem taskWrapper_all_misses (cfg : TaskConfig) (es : List Int)
    (h : ∀ e ∈ es, cfg.deadline < e) :
    (es.foldl (taskWrapperStep cfg true) emptyWrapperState).missedDeadlines = es.length ∧
    (es.foldl (taskWrapperStep cfg true) emptyWrapperState).totalExecutions = es.length ∧
    (es.foldl (taskWrapperStep cfg true) emptyWrapperState).callbackCalls.length = es.length ∧
    (es.foldl (taskWrapperStep cfg true) emptyWrapperState).records =
      es.map fun e => (cfg.name, e, true) := by
  rw [taskWrapper_fold es cfg emptyWrapperState h]
  simp [emptyWrapperState]

/-- Witness for C2: two activations of 11000µs and 12000µs against a
9000µs deadline yield two misses and two callback invocations. -/
theorem taskWrapper_all_misses_witness :
    (([11000, 12000] : List Int).foldl
        (taskWrapperStep ⟨"TestTask1", 10000, 9000, 99, 1, some 0⟩ true)
        emptyWrapperState).missedDeadlines = 2 ∧
    (([11000, 12000] : List Int).foldl
        (taskWrapperStep ⟨"TestTask1", 10000, 9000, 99, 1, some 0⟩ true)
        emptyWrapperState).callbackCalls.length = 2 :=
  ⟨(taskWrapper_all_misses ⟨"TestTask1", 10000, 9000, 99, 1, some 0⟩ [11000, 12000]
      (by decide)).1,
   (taskWrapper_all_misses ⟨"TestTask1", 10000, 9000, 99, 1, some 0⟩ [11000, 12000]
      (by decide)).2.2.1⟩

/-- Witness for C7: resetting a concretely tracked name restores the
zero statistics while keeping the entry. -/
theorem pm_reset_statistics_witness :
    hasTask (resetStatistics ⟨[("A", recordElapsed emptyStats 500 none)], []⟩ "A") "A" = true ∧
    getTaskStats (resetStatistics ⟨[("A", recordElapsed emptyStats 500 none)], []⟩ "A") "A" =
      Except.ok emptyStats :=
  ⟨(pm_reset_statistics ⟨[("A", recordElapsed emptyStats 500 none)], []⟩ "A" "B"
      (by decide) (by decide)).1,
   (pm_reset_statistics ⟨[("A", recordElapsed emptyStats 500 none)], []⟩ "A" "B"
      (by decide) (by decide)).2.1⟩

end RtPipeline
